import Mathlib

/-!
Verification development for the ExportXmlToExcel repository.

The repository parses clash-detection XML reports and re-projects them into
tabular documents.  The definitions below are a shallow embedding of the
Python sources (`export_xml_to_excel_v6.py`, `export_xml_to_word_v4.py`,
`export_xml_to_excel.py`, `discover_xml_fields.py`) into Lean: XML trees are
an inductive type, Python dicts are association lists with Python dict
insert/lookup semantics, Python floats are modelled as exact decimals (the
values the program meets are plain decimal literals), and the filesystem probed by
the asset locator is abstracted as a boolean predicate on path strings.
-/

/-! ## String helpers modelling the Python `str` operations used by the code -/

/-- The characters of a string. -/
def chars (s : String) : List Char := s.data

/-- A string built from a character list. -/
def ofChars (l : List Char) : String := String.mk l

/-- Models Python `str.strip()`: remove leading and trailing whitespace. -/
def pyStrip (s : String) : String :=
  ofChars ((((chars s).dropWhile Char.isWhitespace).reverse.dropWhile Char.isWhitespace).reverse)

/-- Models Python `str.split(sep)` for a one-character separator, and the
newline splitting done by `str.splitlines()` on newline-terminated text. -/
def pySplitChar (c : Char) (s : String) : List String :=
  ((chars s).splitOn c).map ofChars

/-- `startsWithList l p` is true when `p` is a prefix of `l`. -/
def startsWithList : List Char → List Char → Bool
  | _, [] => true
  | [], _ :: _ => false
  | c :: cs, p :: ps => c = p && startsWithList cs ps

/-- Models Python `str.startswith`. -/
def pyStartsWith (s pat : String) : Bool := startsWithList (chars s) (chars pat)

/-- Replace every occurrence of the pattern `p :: ps` by `repl`, left to
right, as Python `str.replace` does.  The `fuel` argument (instantiated with
the input's length, which bounds the number of steps) keeps the recursion
structural. -/
def replaceChars (p : Char) (ps : List Char) (repl : List Char) : Nat → List Char → List Char
  | 0, l => l
  | _ + 1, [] => []
  | fuel + 1, c :: cs =>
    if startsWithList (c :: cs) (p :: ps) then
      repl ++ replaceChars p ps repl fuel (cs.drop ps.length)
    else c :: replaceChars p ps repl fuel cs

/-- Models Python `str.replace(pat, repl)` (all occurrences). -/
def pyReplace (s pat repl : String) : String :=
  match chars pat with
  | [] => s
  | p :: ps => ofChars (replaceChars p ps (chars repl) (chars s).length (chars s))

/-- Models Python `str.join` over a list of strings. -/
def joinWith (sep : String) : List String → String
  | [] => ""
  | [x] => x
  | x :: y :: ys => x ++ sep ++ joinWith sep (y :: ys)

/-- Drop the first `n` characters of a string. -/
def strDrop (s : String) (n : Nat) : String := ofChars ((chars s).drop n)

/-! ## XML model

`xml.etree.ElementTree` elements carry a tag, an attribute dict, optional
text, and an ordered list of children. -/

/-- A parsed XML element, as exposed by `xml.etree.ElementTree`. -/
inductive XML where
  | mk (tag : String) (attrs : List (String × String)) (text : Option String)
      (children : List XML)

/-- The element's tag. -/
def XML.tag : XML → String
  | .mk t _ _ _ => t

/-- The element's attribute list (a Python dict has unique keys). -/
def XML.attrs : XML → List (String × String)
  | .mk _ a _ _ => a

/-- The element's text, `none` when ElementTree reports `None`. -/
def XML.text : XML → Option String
  | .mk _ _ tx _ => tx

/-- The element's direct children in document order. -/
def XML.children : XML → List XML
  | .mk _ _ _ cs => cs

/-- Models `elem.get(key)`: attribute lookup returning `None` when absent. -/
def getAttr (x : XML) (k : String) : Option String :=
  (x.attrs.find? (fun p => p.1 == k)).map (fun p => p.2)

/-- Models `elem.get(key, default)`. -/
def getAttrD (x : XML) (k dflt : String) : String :=
  (getAttr x k).getD dflt

/-- Models `elem.findtext(tag, default)`: the text of the first direct child
with the given tag (an element with `None` text yields `""`), else the
default. -/
def findtext (x : XML) (t dflt : String) : String :=
  match x.children.find? (fun c => c.tag == t) with
  | some c => c.text.getD ""
  | none => dflt

/-- Models `elem.findall(tag)`: the direct children with the given tag. -/
def findall_child (t : String) (x : XML) : List XML :=
  x.children.filter (fun c => c.tag == t)

mutual
/-- All elements of the subtree rooted at `x` (including `x`) whose tag is
`t`, in document (depth-first preorder) order. -/
def findallSelf (t : String) (x : XML) : List XML :=
  match x with
  | .mk tg a tx cs => (if tg = t then [XML.mk tg a tx cs] else []) ++ findallChildren t cs
/-- All elements with tag `t` in the forest `cs`, in document order. -/
def findallChildren (t : String) : List XML → List XML
  | [] => []
  | c :: cs => findallSelf t c ++ findallChildren t cs
end

/-- Models `elem.findall(".//" + t)`: all proper descendants with tag `t`, in
document order (ElementTree's `.//` does not match the element itself). -/
def findall_desc (t : String) (x : XML) : List XML :=
  findallChildren t x.children

/-- Models `elem.find(".//" + t)`: the first proper descendant with tag `t`. -/
def find_desc (t : String) (x : XML) : Option XML :=
  (findall_desc t x).head?

mutual
/-- The number of nodes with tag `t` anywhere in the tree rooted at `x`,
`x` itself included. -/
def countTagSelf (t : String) (x : XML) : Nat :=
  match x with
  | .mk tg _ _ cs => (if tg = t then 1 else 0) + countTagChildren t cs
/-- The number of nodes with tag `t` in the forest `cs`. -/
def countTagChildren (t : String) : List XML → Nat
  | [] => 0
  | c :: cs => countTagSelf t c + countTagChildren t cs
end

/-! ## Python dict model

Association lists with Python `dict` semantics: assignment to an existing key
overwrites its value in place, assignment to a fresh key appends. -/

/-- Models `d[k] = v` on a Python dict: overwrite the binding in place when
the key is present, else append the new binding. -/
def dictInsert : List (String × String) → String → String → List (String × String)
  | [], k, v => [(k, v)]
  | p :: d, k, v => if p.1 = k then (k, v) :: d else p :: dictInsert d k v

/-- Models `d.get(k)`: `None` when the key is absent. -/
def dictGet? : List (String × String) → String → Option String
  | [], _ => none
  | p :: d, k => if p.1 = k then some p.2 else dictGet? d k

/-- Models `d.get(k, default)`. -/
def dictGetD (d : List (String × String)) (k dflt : String) : String :=
  (dictGet? d k).getD dflt

/-! ## Numeric model

Python `float(...)` applied to the plain decimal literals occurring in clash
files is modelled exactly: a parsed value is an integer mantissa over a power
of ten, so `f"{v:.3f}"` formatting is pure integer arithmetic.  (Exponent
notation, `inf`/`nan` and binary-rounding ties — none of which a claim
exercises — are outside the model: a string the parser rejects models a
raised `ValueError`.) -/

/-- An exactly represented decimal number: the value `mant / 10 ^ scale`. -/
structure Dec where
  mant : ℤ
  scale : Nat
deriving DecidableEq

/-- The decimal zero, the value Python's `float(0.0)` yields. -/
def decZero : Dec := ⟨0, 0⟩

/-- The natural number denoted by a digit list (most significant first). -/
def natOfDigits (l : List Char) : Nat :=
  l.foldl (fun a c => a * 10 + (c.toNat - 48)) 0

/-- Every character is a decimal digit. -/
def isDigits (l : List Char) : Bool := l.all Char.isDigit

/-- Models Python `float(s)` on plain decimal literals: optional sign, digits
with at most one decimal point.  `none` models a raised `ValueError`. -/
def parseFloat? (s : String) : Option Dec :=
  let t := pyStrip s
  let body := if pyStartsWith t "-" || pyStartsWith t "+" then strDrop t 1 else t
  let neg := pyStartsWith t "-"
  match pySplitChar '.' body with
  | [ip] =>
    if ip ≠ "" ∧ isDigits (chars ip) then
      let mag : ℤ := (natOfDigits (chars ip) : ℤ)
      some ⟨if neg then -mag else mag, 0⟩
    else none
  | [ip, fp] =>
    if (ip ≠ "" ∨ fp ≠ "") ∧ isDigits (chars ip) ∧ isDigits (chars fp) then
      let mag : ℤ := (natOfDigits (chars ip) * 10 ^ (chars fp).length
        + natOfDigits (chars fp) : ℤ)
      some ⟨if neg then -mag else mag, (chars fp).length⟩
    else none
  | _ => none

/-- `divRound a b` is `a / b` rounded to the nearest integer for `b > 0`
(half rounds up; the program only formats values that are exact multiples of
`1/1000`, where no tie can occur). -/
def divRound (a b : ℤ) : ℤ := Int.fdiv (2 * a + b) (2 * b)

/-- Left-pad a fractional part below 1000 to three digits. -/
def pad3 (n : Nat) : String :=
  if n < 10 then "00" ++ toString n
  else if n < 100 then "0" ++ toString n
  else toString n

/-- Models the f-string `.3f` format: fixed-point with three decimals. -/
def format3 (d : Dec) : String :=
  let m := divRound (d.mant * 1000) ((10 : ℤ) ^ d.scale)
  (if m < 0 then "-" else "") ++ toString (m.natAbs / 1000) ++ "." ++ pad3 (m.natAbs % 1000)

/-! ## Tag Resolver

`get_item_details` in `export_xml_to_excel_v6.py` (lines 97-120, identical in
`export_xml_to_word_v4.py` lines 77-100) first builds a dict `tags` from the
object's `smarttag` descendants; `export_xml_to_excel.py` (lines 116-153)
builds a dict `data` from the `smarttag` direct children, skipping tags whose
stripped name or value is empty. -/

/-- One iteration of the v6 tag loop:
`name = st.findtext("name", "").strip(); val = st.findtext("value", "").strip();
if name: tags[name] = val`. -/
def tagStep (tags : List (String × String)) (st : XML) : List (String × String) :=
  let name := pyStrip (findtext st "name" "")
  let val := pyStrip (findtext st "value" "")
  if name ≠ "" then dictInsert tags name val else tags

/-- The `tags` dict of `get_item_details` in `export_xml_to_excel_v6.py`,
built over `clash_object.findall(".//smarttag")`. -/
def tags_v6 (clash_object : XML) : List (String × String) :=
  (findall_desc "smarttag" clash_object).foldl tagStep []

/-- One iteration of the tag loop of `export_xml_to_excel.py` (lines 123-141):
tags with an empty stripped name or value are skipped, recognized names are
stored under fixed keys, unrecognized names are ignored. -/
def dataStep (data : List (String × String)) (tag : XML) : List (String × String) :=
  let name := pyStrip (findtext tag "name" "")
  let value := pyStrip (findtext tag "value" "")
  if name = "" ∨ value = "" then data
  else if name = "Item Name" then dictInsert data "itemName" value
  else if name = "Civil3D General:Network name" then dictInsert data "network" value
  else if name = "Civil3D General:Part Size Name" then dictInsert data "partSize" value
  else if name = "Item Type" then dictInsert data "itemType" value
  else if name = "Civil3D General:Inner Diameter or Width" then dictInsert data "inner" value
  else if name = "Civil3D General:Outer Diameter or Width" then dictInsert data "outer" value
  else data

/-- The `data` dict of `get_item_details` in `export_xml_to_excel.py`, built
over `clashObject.findall("smarttag")` (direct children). -/
def data_plain (clashObject : XML) : List (String × String) :=
  (findall_child "smarttag" clashObject).foldl dataStep []

/-! ## Item Normalizer -/

/-- `get_item_details` of `export_xml_to_excel_v6.py` (lines 97-120).  The
`none` argument models the Python `None` guard; the builder passes
`objs[i]` when it exists.  `tags.get(k)` truthiness collapses `None` and
`""`, which `dictGetD … ""` models. -/
def get_item_details (clash_object : Option XML) : String :=
  match clash_object with
  | none => ""
  | some co =>
    let tags := tags_v6 co
    let itemName := dictGetD tags "Item Name" ""
    let l1 := if itemName ≠ "" then ["Item Name: " ++ itemName] else []
    let network := dictGetD tags "Civil3D General:Network name" ""
    let l2 := if network ≠ "" then ["Network: " ++ network] else []
    let part := dictGetD tags "Civil3D General:Part Size Name" ""
    let itype := dictGetD tags "Item Type" ""
    let type_line := pyStrip (joinWith " " ([part, itype].filter (fun x => x ≠ "")))
    let l3 := if type_line ≠ "" then ["Item Type: " ++ type_line] else []
    let inner := dictGetD tags "Civil3D General:Inner Diameter or Width" ""
    let outer := dictGetD tags "Civil3D General:Outer Diameter or Width" ""
    let l4 := if inner ≠ "" ∨ outer ≠ "" then [pyStrip ("Pipe " ++ inner ++ " x " ++ outer)] else []
    joinWith "\n" (l1 ++ l2 ++ l3 ++ l4)

/-- `get_item_name_short` of `export_xml_to_excel_v6.py` (lines 90-95): the
first line starting with `"Item Name:"`, with that label removed and
stripped; otherwise the first line of the text; otherwise `"Unknown"`. -/
def get_item_name_short (item_details_text : String) : String :=
  let lines := pySplitChar '\n' item_details_text
  match lines.find? (fun line => pyStartsWith line "Item Name:") with
  | some line => pyStrip (pyReplace line "Item Name:" "")
  | none =>
    let first := if item_details_text ≠ "" then lines.headD "" else ""
    if first ≠ "" then first else "Unknown"

/-! ## Coordinate extraction

`export_xml_to_excel_v6.py` lines 172-182 wrap the three `float(...)` calls
in `try/except`, degrading to an empty string; `export_xml_to_word_v4.py`
lines 177-183 have no handler, so a parse failure propagates. -/

/-- Models `float(pos.get(axis) or 0.0)`: a missing or empty attribute is the
falsy branch of `or` and becomes `0.0`; otherwise the string is parsed, and
`none` models the raised `ValueError`. -/
def axisVal : Option String → Option Dec
  | none => some decZero
  | some s => if s = "" then some decZero else parseFloat? s

/-- The `coords_text` computed by `export_to_excel` (v6, lines 172-182): a
failed parse on any axis aborts the `try` block and leaves `coords_text`
empty. -/
def coords_text_v6 (clash : XML) : String :=
  match find_desc "pos3f" clash with
  | none => ""
  | some pos =>
    match axisVal (getAttr pos "x") with
    | none => ""
    | some x =>
      match axisVal (getAttr pos "y") with
      | none => ""
      | some y =>
        match axisVal (getAttr pos "z") with
        | none => ""
        | some z => format3 x ++ "m,\n" ++ format3 y ++ "m,\n" ++ format3 z ++ "m"

/-- The `coords_text` computed by `export_to_word` (word v4, lines 177-183):
no exception handler, so `Except.error` models the exception propagating out
of the row loop. -/
def coords_text_word (clash : XML) : Except Unit String :=
  match find_desc "pos3f" clash with
  | none => .ok ""
  | some pos =>
    match axisVal (getAttr pos "x") with
    | none => .error ()
    | some x =>
      match axisVal (getAttr pos "y") with
      | none => .error ()
      | some y =>
        match axisVal (getAttr pos "z") with
        | none => .error ()
        | some z => .ok (format3 x ++ "m, " ++ format3 y ++ "m, " ++ format3 z ++ "m")

/-! ## Asset Locator

`find_image_file` of `export_xml_to_excel_v6.py` (lines 48-68, identical in
`export_xml_to_word_v4.py` lines 36-56).  Paths are POSIX-style strings; the
filesystem and `Path.resolve()` are abstracted as the parameters `fs`
(existence predicate on paths) and `resolve`. -/

/-- `href_raw.replace("\\", "/").strip()`. -/
def normalizeHref (href_raw : String) : String :=
  pyStrip (pyReplace href_raw "\\" "/")

/-- Models `PurePosixPath.is_absolute()`. -/
def isAbsolutePath (s : String) : Bool := pyStartsWith s "/"

/-- Models `Path(s).name`: the last non-empty slash-separated component. -/
def baseName (s : String) : String :=
  ((pySplitChar '/' s).filter (fun x => x ≠ "")).getLastD ""

/-- Models the pathlib `/` operator on POSIX-style path strings: an absolute
right operand replaces the left, an empty right operand is dropped. -/
def joinPath (dir p : String) : String :=
  if isAbsolutePath p then p else if p = "" then dir else dir ++ "/" ++ p

/-- The candidate list built by `find_image_file` from the normalised href:
the raw path if syntactically absolute, then the raw path under the
document's directory, then the basename under the document's directory, then
the basename under the `ELV_files` subdirectory. -/
def candidates (xml_dir href : String) : List String :=
  (if isAbsolutePath href then [href] else [])
    ++ [joinPath xml_dir href,
        joinPath xml_dir (baseName href),
        joinPath (joinPath xml_dir "ELV_files") (baseName href)]

/-- `find_image_file(href_raw, xml_path)` (v6 lines 48-68): an empty raw
reference returns `None` at once; otherwise each candidate is resolved and
probed in order and the first existing resolved path is returned. -/
def find_image_file (resolve : String → String) (fs : String → Bool)
    (href_raw xml_dir : String) : Option String :=
  if href_raw = "" then none
  else ((candidates xml_dir (normalizeHref href_raw)).map resolve).find? fs

/-! ## Group Attributor

`export_to_excel` (v6) lines 160-168 and `export_to_word` (word v4) lines
164-172: scan every `clashtest` in document order; inside each, scan its
descendant `clashresult`s for the target's guid; a test whose resolved name
is the fallback label does not stop the outer scan. -/

/-- Models `clash_guid and cr.get("guid") == clash_guid`: a `None` or empty
guid is falsy and never matches. -/
def guidMatches (clash_guid : Option String) (cr : XML) : Bool :=
  match clash_guid with
  | none => false
  | some g => if g = "" then false else getAttr cr "guid" == some g

/-- One iteration of the `clash_group` loop of v6 lines 160-168 for the test
`test`: the accumulator is `clash_group`; once it differs from
`"Unknown Group"` the outer `break` has fired and later tests are ignored,
and the inner loop over `test.findall(".//clashresult")` with its `break` is
the `any` scan. -/
def groupStep (clash_guid : Option String) (clash_group : String) (test : XML) : String :=
  if clash_group ≠ "Unknown Group" then clash_group
  else if (findall_desc "clashresult" test).any (fun cr => guidMatches clash_guid cr) then
    getAttrD test "name" "Unknown Group"
  else clash_group

/-- The `clash_group` computed by v6 lines 160-168 for one clash:
`clash_guid = clash.get("guid")`, then the loop over
`root.findall(".//clashtest")`. -/
def clash_group_of (root : XML) (clash : XML) : String :=
  (findall_desc "clashtest" root).foldl (groupStep (getAttr clash "guid")) "Unknown Group"

/-- Whether a test's descendant results contain the (non-empty) guid `g`. -/
def testHasGuid (g : String) (test : XML) : Bool :=
  (findall_desc "clashresult" test).any (fun cr => getAttr cr "guid" == some g)

/-- Specification-side characterization of group resolution as the code
implements it: the resolved name of the earliest `clashtest` in document
order that contains the guid and whose resolved name is not the fallback
label, else the fallback label. -/
def firstNamedGroupSpec (g : String) (root : XML) : String :=
  (((findall_desc "clashtest" root).find?
      (fun t => testHasGuid g t && (getAttrD t "name" "Unknown Group" != "Unknown Group"))).map
    (fun t => getAttrD t "name" "Unknown Group")).getD "Unknown Group"

/-! ## Clash Record Builder

`export_to_excel` of `export_xml_to_excel_v6.py` (lines 123-238).  The Excel
workbook object is out of scope; the record collects the values written into
columns 1-6 of each data row.  The filesystem is abstracted by the
`resolve`/`fs` parameters of the asset locator. -/

/-- The values `export_to_excel` writes into one data row of the
"Clash Report" sheet. -/
structure ClashRecord where
  idx : Nat
  clash_group : String
  clash_name : String
  distance : String
  coords_text : String
  item1_text : String
  item2_text : String
  item2_name : String
  clash_details : String
  img : Option String

/-- Models Python `enumerate(clashes, start=n)`. -/
def enumFrom (n : Nat) : List XML → List (Nat × XML)
  | [] => []
  | c :: cs => (n, c) :: enumFrom (n + 1) cs

/-- The body of the `for i, clash in enumerate(clashes, start=1)` loop of
`export_to_excel` (v6, lines 159-206), for one clash at index `i`. -/
def buildRecord (resolve : String → String) (fs : String → Bool) (xml_dir : String)
    (root : XML) (i : Nat) (clash : XML) : ClashRecord :=
  let clash_group := clash_group_of root clash
  let clash_name := getAttrD clash "name" ("Clash" ++ toString i)
  let distance := getAttrD clash "distance" "N/A"
  let coords_text := coords_text_v6 clash
  let objs := findall_desc "clashobject" clash
  let item1_text := get_item_details objs[0]?
  let item2_text := get_item_details objs[1]?
  let item2_name := get_item_name_short item2_text
  let between_line := "Between: " ++ get_item_name_short item1_text ++ " and " ++ item2_name ++ "\n"
  let clash_details := "Clash Group: " ++ clash_group ++ "\n" ++ between_line ++ "\n"
    ++ clash_name ++ "\nDistance: " ++ distance ++ "m\nClash Point:\n" ++ coords_text
  let href_raw := (getAttr clash "href").getD ""
  { idx := i, clash_group := clash_group, clash_name := clash_name, distance := distance,
    coords_text := coords_text, item1_text := item1_text, item2_text := item2_text,
    item2_name := item2_name, clash_details := clash_details,
    img := find_image_file resolve fs href_raw xml_dir }

/-- The ordered sequence of records `export_to_excel` emits:
`clashes = root.findall(".//clashresult")` enumerated from 1. -/
def export_records (resolve : String → String) (fs : String → Bool) (xml_dir : String)
    (root : XML) : List ClashRecord :=
  (enumFrom 1 (findall_desc "clashresult" root)).map
    (fun p => buildRecord resolve fs xml_dir root p.1 p.2)

/-- How one run of `export_to_excel` (v6, lines 123-130) terminates. -/
inductive ExportOutcome where
  | returnedNoOutput
  | raisedParseError
  | completed (records : List ClashRecord)

/-- The prologue of `export_to_excel` (v6, lines 123-130): a missing source
file prints a message and returns normally; `ET.parse` either raises (the
exception propagates out of the function) or yields the root, after which
the records are produced.  `fileExists` abstracts `xml_path.exists()` and
`parseResult` abstracts `ET.parse(xml_path)`. -/
def export_to_excel_run (resolve : String → String) (fs : String → Bool) (xml_dir : String)
    (fileExists : Bool) (parseResult : Except Unit XML) : ExportOutcome :=
  if fileExists = false then .returnedNoOutput
  else
    match parseResult with
    | .error _ => .raisedParseError
    | .ok root => .completed (export_records resolve fs xml_dir root)

/-- True exactly when the run terminated by an exception propagating. -/
def propagatesError : ExportOutcome → Bool
  | .raisedParseError => true
  | _ => false

/-! ## Field Discovery Scanner

`discover_fields` of `discover_xml_fields.py` (lines 42-63). -/

/-- Python string comparison: lexicographic by code point. -/
def listCharLt : List Char → List Char → Bool
  | [], [] => false
  | [], _ :: _ => true
  | _ :: _, [] => false
  | a :: as, b :: bs =>
    if a.toNat < b.toNat then true
    else if b.toNat < a.toNat then false
    else listCharLt as bs

/-- String order used by Python `sorted`. -/
def strLtB (a b : String) : Bool := listCharLt (chars a) (chars b)

/-- Insert into a sorted list of strings. -/
def insertSorted (x : String) : List String → List String
  | [] => [x]
  | y :: ys => if strLtB y x then y :: insertSorted x ys else x :: y :: ys

/-- Models Python `sorted` on a list of strings. -/
def sortStrings : List String → List String
  | [] => []
  | x :: xs => insertSorted x (sortStrings xs)

/-- The `walk` predicate: the element has stripped text or children. -/
def hasTextOrChildren (tx : Option String) (cs : List XML) : Bool :=
  (match tx with
   | some t => pyStrip t != ""
   | none => false) || !cs.isEmpty

mutual
/-- The `walk` helper of `discover_fields`: element paths and attribute
paths contributed by the subtree of `elem`, given the path so far. -/
def walkElem (path : String) (elem : XML) : List String × List String :=
  match elem with
  | .mk tg attrs tx cs =>
    let tag_path := if path = "" then tg else path ++ "/" ++ tg
    let attrPaths := attrs.map (fun a => tag_path ++ "/@" ++ a.1)
    let selfElems := if hasTextOrChildren tx cs then [tag_path] else []
    let rest := walkChildren tag_path cs
    (selfElems ++ rest.1, attrPaths ++ rest.2)
/-- `walk` over a list of sibling elements. -/
def walkChildren (path : String) : List XML → List String × List String
  | [] => ([], [])
  | c :: cs =>
    let r1 := walkElem path c
    let r2 := walkChildren path cs
    (r1.1 ++ r2.1, r1.2 ++ r2.2)
end

/-- `discover_fields` (lines 42-63): walk from the root, collect the two
path sets, and return both sorted (`sorted(set)` = deduplicate then sort). -/
def discover_fields (root : XML) : List String × List String :=
  let r := walkElem "" root
  (sortStrings r.1.dedup, sortStrings r.2.dedup)

/-! ## Supporting lemmas -/

mutual
theorem length_findallSelf (t : String) (x : XML) :
    (findallSelf t x).length = countTagSelf t x := by
  match x with
  | .mk tg a tx cs =>
    rw [findallSelf, countTagSelf, List.length_append, length_findallChildren t cs]
    by_cases h : tg = t <;> simp [h]
theorem length_findallChildren (t : String) (cs : List XML) :
    (findallChildren t cs).length = countTagChildren t cs := by
  match cs with
  | [] => rfl
  | c :: cs' =>
    rw [findallChildren, countTagChildren, List.length_append,
      length_findallSelf t c, length_findallChildren t cs']
end

theorem enumFrom_map_fst (l : List XML) : ∀ n, (enumFrom n l).map Prod.fst = List.range' n l.length := by
  induction l with
  | nil => intro n; rfl
  | cons c cs ih => intro n; simp [enumFrom, List.range'_succ, ih]

theorem enumFrom_length (l : List XML) : ∀ n, (enumFrom n l).length = l.length := by
  induction l with
  | nil => intro n; rfl
  | cons c cs ih => intro n; simp [enumFrom, ih]

theorem mem_dictInsert {p : String × String} :
    ∀ {d : List (String × String)} {k v : String},
    p ∈ dictInsert d k v → p = (k, v) ∨ p ∈ d := by
  intro d
  induction d with
  | nil =>
    intro k v h
    exact Or.inl (List.mem_singleton.1 h)
  | cons q d ih =>
    intro k v h
    rw [dictInsert] at h
    split at h
    · rcases List.mem_cons.1 h with h1 | h1
      · exact Or.inl h1
      · exact Or.inr (List.mem_cons_of_mem q h1)
    · rcases List.mem_cons.1 h with h1 | h1
      · exact Or.inr (h1 ▸ List.mem_cons_self q d)
      · rcases ih h1 with h2 | h2
        · exact Or.inl h2
        · exact Or.inr (List.mem_cons_of_mem q h2)

theorem dictGet?_dictInsert_self :
    ∀ (d : List (String × String)) (k v : String),
    dictGet? (dictInsert d k v) k = some v := by
  intro d
  induction d with
  | nil =>
    intro k v
    simp [dictInsert, dictGet?]
  | cons q d ih =>
    intro k v
    rw [dictInsert]
    split
    · simp [dictGet?]
    next hq => simp [dictGet?, hq, ih]

theorem dictGet?_dictInsert_ne :
    ∀ (d : List (String × String)) (k v k' : String), k' ≠ k →
    dictGet? (dictInsert d k v) k' = dictGet? d k' := by
  intro d
  induction d with
  | nil =>
    intro k v k' hne
    have h1 : ¬((k : String) = k') := fun h => hne h.symm
    simp [dictInsert, dictGet?, h1]
  | cons q d ih =>
    intro k v k' hne
    rw [dictInsert]
    split
    next hq =>
      have h1 : ¬((k : String) = k') := fun h => hne h.symm
      have h2 : ¬(q.1 = k') := by rw [hq]; exact h1
      simp [dictGet?, h1, h2]
    next hq =>
      by_cases hq' : q.1 = k'
      · simp [dictGet?, hq']
      · simp [dictGet?, hq', ih k v k' hne]

theorem foldl_tagStep_keys (l : List XML) :
    ∀ acc : List (String × String), (∀ p ∈ acc, p.1 ≠ "") →
    ∀ p ∈ l.foldl tagStep acc, p.1 ≠ "" := by
  induction l with
  | nil =>
    intro acc h
    simpa using h
  | cons st l ih =>
    intro acc h
    rw [List.foldl_cons]
    apply ih
    intro p hp
    simp only [tagStep] at hp
    split at hp
    next hname =>
      rcases mem_dictInsert hp with he | hmem
      · rw [he]
        exact hname
      · exact h p hmem
    next => exact h p hp

theorem tags_get_unaffected :
    ∀ (l : List XML) (acc : List (String × String)) (k : String),
    (∀ st ∈ l, pyStrip (findtext st "name" "") ≠ k) →
    dictGet? (l.foldl tagStep acc) k = dictGet? acc k := by
  intro l
  induction l with
  | nil => intro acc k _; rfl
  | cons st l ih =>
    intro acc k h
    rw [List.foldl_cons]
    rw [ih _ k (fun st' hst' => h st' (List.mem_cons_of_mem st hst'))]
    simp only [tagStep]
    split
    next hname =>
      exact dictGet?_dictInsert_ne acc _ _ k
        (Ne.symm (h st (List.mem_cons_self st l)))
    next => rfl

theorem mem_insert_entry {d : List (String × String)} {k v : String}
    {p : String × String} (hd : ∀ q ∈ d, q.1 ≠ "" ∧ q.2 ≠ "")
    (hk : k ≠ "") (hv : v ≠ "") (hp : p ∈ dictInsert d k v) :
    p.1 ≠ "" ∧ p.2 ≠ "" := by
  rcases mem_dictInsert hp with he | hmem
  · rw [he]
    exact ⟨hk, hv⟩
  · exact hd p hmem

theorem foldl_dataStep_entries (l : List XML) :
    ∀ acc : List (String × String), (∀ p ∈ acc, p.1 ≠ "" ∧ p.2 ≠ "") →
    ∀ p ∈ l.foldl dataStep acc, p.1 ≠ "" ∧ p.2 ≠ "" := by
  induction l with
  | nil =>
    intro acc h
    simpa using h
  | cons tag l ih =>
    intro acc h
    rw [List.foldl_cons]
    apply ih
    intro p hp
    simp only [dataStep] at hp
    split at hp
    next => exact h p hp
    next hcond =>
      have hv : pyStrip (findtext tag "value" "") ≠ "" := fun he => hcond (Or.inr he)
      split at hp
      next => exact mem_insert_entry h (by decide) hv hp
      next =>
        split at hp
        next => exact mem_insert_entry h (by decide) hv hp
        next =>
          split at hp
          next => exact mem_insert_entry h (by decide) hv hp
          next =>
            split at hp
            next => exact mem_insert_entry h (by decide) hv hp
            next =>
              split at hp
              next => exact mem_insert_entry h (by decide) hv hp
              next =>
                split at hp
                next => exact mem_insert_entry h (by decide) hv hp
                next => exact h p hp

theorem groupFold_stay (guid : Option String) :
    ∀ (tests : List XML) (acc : String), acc ≠ "Unknown Group" →
    tests.foldl (groupStep guid) acc = acc := by
  intro tests
  induction tests with
  | nil => intro acc _; rfl
  | cons t ts ih =>
    intro acc h
    rw [List.foldl_cons]
    rw [show groupStep guid acc t = acc from by unfold groupStep; rw [if_pos h]]
    exact ih acc h

theorem groupFold_char (guid : Option String) :
    ∀ tests : List XML,
    tests.foldl (groupStep guid) "Unknown Group" =
      ((tests.find? (fun t =>
          (findall_desc "clashresult" t).any (fun cr => guidMatches guid cr)
            && (getAttrD t "name" "Unknown Group" != "Unknown Group"))).map
        (fun t => getAttrD t "name" "Unknown Group")).getD "Unknown Group" := by
  intro tests
  induction tests with
  | nil => rfl
  | cons t ts ih =>
    rw [List.foldl_cons]
    cases hm : (findall_desc "clashresult" t).any (fun cr => guidMatches guid cr) with
    | false =>
      have hstep : groupStep guid "Unknown Group" t = "Unknown Group" := by
        unfold groupStep
        rw [if_neg (by simp), hm]
        rfl
      rw [hstep, ih, List.find?_cons]
      rw [hm]
      rfl
    | true =>
      by_cases hn : getAttrD t "name" "Unknown Group" = "Unknown Group"
      · have hstep : groupStep guid "Unknown Group" t = "Unknown Group" := by
          unfold groupStep
          rw [if_neg (by simp), hm, if_pos rfl, hn]
        rw [hstep, ih, List.find?_cons]
        rw [hm, show (getAttrD t "name" "Unknown Group" != "Unknown Group") = false from by simp [hn]]
        rfl
      · have hstep : groupStep guid "Unknown Group" t = getAttrD t "name" "Unknown Group" := by
          unfold groupStep
          rw [if_neg (by simp), hm, if_pos rfl]
        rw [hstep, groupFold_stay guid ts _ hn, List.find?_cons]
        rw [hm, show (getAttrD t "name" "Unknown Group" != "Unknown Group") = true from by simp [hn]]
        rfl

theorem groupFold_no_match (guid : Option String)
    (hall : ∀ cr : XML, guidMatches guid cr = false) :
    ∀ tests : List XML,
    tests.foldl (groupStep guid) "Unknown Group" = "Unknown Group" := by
  intro tests
  induction tests with
  | nil => rfl
  | cons t ts ih =>
    rw [List.foldl_cons]
    have hstep : groupStep guid "Unknown Group" t = "Unknown Group" := by
      unfold groupStep
      rw [if_neg (by simp)]
      rw [show ((findall_desc "clashresult" t).any (fun cr => guidMatches guid cr)) = false from by
        simp [hall]]
      rfl
    rw [hstep, ih]

/-! ## Claim theorems -/

/-- Document with three `clashresult` nodes at different nesting depths,
used to witness the record-builder claims. -/
def w1root : XML := .mk "batchtest" [] none
  [.mk "clashtest" [("name", "T1")] none
    [.mk "clashresult" [("guid", "a")] none [],
     .mk "clashresults" [] none [.mk "clashresult" [("guid", "b")] none []]],
   .mk "clashresult" [("guid", "c")] none []]

/-- Claim C1: for every parsed clash document (whose root is a container, not
itself a `clashresult`), the builder emits exactly one record per
`clashresult` node found anywhere in the tree, regardless of nesting depth,
and the records carry indices exactly `1..N`, dense with no gaps, in document
(depth-first) order. -/
theorem claim_C1_record_indices :
    ∀ (resolve : String → String) (fs : String → Bool) (xml_dir : String) (root : XML),
    root.tag ≠ "clashresult" →
    (export_records resolve fs xml_dir root).map ClashRecord.idx
        = List.range' 1 (countTagSelf "clashresult" root)
    ∧ (export_records resolve fs xml_dir root).length
        = countTagSelf "clashresult" root := by
  intro resolve fs xml_dir root h
  have hcount : countTagSelf "clashresult" root = (findall_desc "clashresult" root).length := by
    cases root with
    | mk tg a tx cs =>
      have htg : tg ≠ "clashresult" := h
      rw [countTagSelf, if_neg htg, findall_desc]
      show 0 + countTagChildren "clashresult" cs = (findallChildren "clashresult" cs).length
      rw [length_findallChildren]
      omega
  refine ⟨?_, ?_⟩
  · unfold export_records
    rw [List.map_map]
    rw [show (ClashRecord.idx ∘ fun p : Nat × XML => buildRecord resolve fs xml_dir root p.1 p.2)
        = Prod.fst from funext fun p => rfl]
    rw [enumFrom_map_fst, hcount]
  · unfold export_records
    rw [List.length_map, enumFrom_length, hcount]

/-- Claim C1 witness: on a concrete document with three `clashresult` nodes
at depths 1, 2 and 3, the emitted indices are exactly `[1, 2, 3]`. -/
theorem claim_C1_witness :
    (w1root.tag ≠ "clashresult"
      ∧ countTagSelf "clashresult" w1root = 3)
    ∧ (export_records (fun s => s) (fun _ => false) "" w1root).map ClashRecord.idx
        = List.range' 1 (countTagSelf "clashresult" w1root) :=
  ⟨⟨by decide, by decide⟩,
   (claim_C1_record_indices (fun s => s) (fun _ => false) "" w1root (by decide)).1⟩

/-- Document in which the first group (in document order) containing guid
`"g"` is explicitly named with the fallback label, and a later group named
`"G2"` also contains guid `"g"`. -/
def c2root : XML := .mk "exchange" [] none
  [.mk "clashtest" [("name", "Unknown Group")] none
    [.mk "clashresult" [("guid", "g")] none []],
   .mk "clashtest" [("name", "G2")] none
    [.mk "clashresult" [("guid", "g")] none []]]

/-- A target clash carrying guid `"g"`. -/
def c2clash : XML := .mk "clashresult" [("guid", "g")] none []

/-- Claim C2 counterexample: in `c2root` both group containers contain a
`clashresult` with guid `"g"`, and the earlier container's name is
`"Unknown Group"`; group resolution nevertheless returns the *later*
container's name `"G2"`, so the returned name is not the name of the group
appearing earlier in document order, refuting the claim as stated. -/
theorem claim_C2_counterexample :
    (findall_desc "clashtest" c2root).map (fun t => getAttr t "name")
        = [some "Unknown Group", some "G2"]
    ∧ (findall_desc "clashtest" c2root).map (testHasGuid "g") = [true, true]
    ∧ getAttr c2clash "guid" = some "g"
    ∧ clash_group_of c2root c2clash = "G2" := by
  refine ⟨by decide, by decide, by decide, by decide⟩

/-- Claim C2 (amended): group attribution returns the resolved name of the
earliest group container in document order that contains a `clashresult`
with the target's guid *and* whose resolved name differs from
`"Unknown Group"` — a match inside a group whose name is missing or equals
`"Unknown Group"` does not stop the scan, so a later group's name can win;
and a target with a missing (or empty) guid resolves to `"Unknown Group"`
without any group matching. -/
theorem claim_C2_group_attribution :
    ∀ (root clash : XML),
    (∀ g : String, getAttr clash "guid" = some g → g ≠ "" →
        clash_group_of root clash = firstNamedGroupSpec g root)
    ∧ ((getAttr clash "guid" = none ∨ getAttr clash "guid" = some "") →
        clash_group_of root clash = "Unknown Group") := by
  intro root clash
  constructor
  · intro g hg hne
    unfold clash_group_of
    rw [hg, groupFold_char]
    unfold firstNamedGroupSpec
    have hfun : (fun t : XML => (findall_desc "clashresult" t).any
          (fun cr => guidMatches (some g) cr)
          && (getAttrD t "name" "Unknown Group" != "Unknown Group"))
        = (fun t : XML => testHasGuid g t
          && (getAttrD t "name" "Unknown Group" != "Unknown Group")) := by
      funext t
      simp [guidMatches, testHasGuid, hne]
    rw [hfun]
  · intro hcases
    unfold clash_group_of
    apply groupFold_no_match
    intro cr
    rcases hcases with h | h <;> rw [h] <;> simp [guidMatches]

/-- Claim C2 witness: on the concrete document `c2root`, resolution for guid
`"g"` agrees with the first-named-match characterization, whose value there
is `"G2"`. -/
theorem claim_C2_witness :
    clash_group_of c2root c2clash = firstNamedGroupSpec "g" c2root
    ∧ firstNamedGroupSpec "g" c2root = "G2" :=
  ⟨(claim_C2_group_attribution c2root c2clash).1 "g" rfl (by decide), by decide⟩

/-- Claim C3: the asset locator returns the first existing candidate in the
fixed priority order — in particular, when a file exists at the third
candidate (basename in the document directory) but not at the first
(absolute raw path, when applicable) or the second (raw path under the
document directory), that third candidate is returned for *every* state of
the rest of the filesystem (so the fourth candidate is never consulted); and
an empty raw reference returns the not-found sentinel for every filesystem
(no probe can influence the result). -/
theorem claim_C3_asset_locator :
    (∀ (resolve : String → String) (fs : String → Bool) (href_raw xml_dir : String),
      href_raw ≠ "" →
      (isAbsolutePath (normalizeHref href_raw) = true →
        fs (resolve (normalizeHref href_raw)) = false) →
      fs (resolve (joinPath xml_dir (normalizeHref href_raw))) = false →
      fs (resolve (joinPath xml_dir (baseName (normalizeHref href_raw)))) = true →
      find_image_file resolve fs href_raw xml_dir
        = some (resolve (joinPath xml_dir (baseName (normalizeHref href_raw)))))
    ∧ (∀ (resolve : String → String) (fs : String → Bool) (xml_dir : String),
      find_image_file resolve fs "" xml_dir = none) := by
  constructor
  · intro resolve fs href_raw xml_dir h1 hA h2 h3
    unfold find_image_file candidates
    rw [if_neg h1]
    cases habs : isAbsolutePath (normalizeHref href_raw) with
    | true =>
      simp only [habs, if_true, List.cons_append, List.nil_append, List.map_cons,
        List.find?, hA habs, h2, h3]
    | false =>
      simp only [habs, Bool.false_eq_true, if_false, List.nil_append, List.map_cons,
        List.find?, h2, h3]
  · intro resolve fs xml_dir
    unfold find_image_file
    rw [if_pos rfl]

/-- Filesystem fixture for the asset-locator witness: exactly the third and
fourth candidate paths exist. -/
def c3fs (s : String) : Bool :=
  s == "doc/img.png" || s == "doc/ELV_files/img.png"

/-- Claim C3 witness: for the backslash-separated relative reference
`"sub\img.png"` with document directory `"doc"`, where `"doc/img.png"` (the
third candidate) and `"doc/ELV_files/img.png"` (the fourth) both exist but
the second candidate `"doc/sub/img.png"` does not, the locator returns the
third candidate; and the empty reference yields the sentinel. -/
theorem claim_C3_witness :
    find_image_file (fun s => s) c3fs "sub\\img.png" "doc" = some "doc/img.png"
    ∧ find_image_file (fun s => s) c3fs "" "doc" = none :=
  ⟨((claim_C3_asset_locator.1 (fun s => s) c3fs "sub\\img.png" "doc"
      (by decide) (by decide) (by decide) (by decide)).trans (by decide)),
   claim_C3_asset_locator.2 (fun s => s) c3fs "doc"⟩

/-- A clash object carrying one `smarttag` whose name is `"T"` and whose
value is whitespace only. -/
def c4obj : XML := .mk "clashobject" [] none
  [.mk "smarttag" [] none
    [.mk "name" [] (some "T") [], .mk "value" [] (some " ") []]]

/-- Claim C4 counterexample: the v6 tag resolver *stores* a smarttag with a
non-empty name and a whitespace-only value — the mapping of `c4obj` contains
the entry `("T", "")`, whose value is empty after trimming, refuting the
claim that such tags are dropped rather than stored. -/
theorem claim_C4_counterexample :
    ("T", "") ∈ tags_v6 c4obj ∧ dictGet? (tags_v6 c4obj) "T" = some "" := by
  refine ⟨by decide, by decide⟩

/-- Claim C4 (amended): the tag resolver's output mapping contains no entry
whose name is empty after trimming, but the v6 resolver (`tags_v6`, shared
by the Word v4 exporter) *does* store entries whose trimmed value is empty
under a non-empty name; only the `export_xml_to_excel.py` resolver
(`data_plain`) also drops empty-valued tags, so only there does the mapping
contain no empty name and no empty value. -/
theorem claim_C4_tag_resolver_empties :
    (∀ co : XML, ∀ p ∈ tags_v6 co, p.1 ≠ "")
    ∧ (∀ co : XML, ∀ p ∈ data_plain co, p.1 ≠ "" ∧ p.2 ≠ "") := by
  constructor
  · intro co p hp
    exact foldl_tagStep_keys _ [] (by intro q hq; cases hq) p hp
  · intro co p hp
    exact foldl_dataStep_entries _ [] (by intro q hq; cases hq) p hp

/-- Claim C4 witness: the entry `("T", "")` stored by the v6 resolver for
`c4obj` indeed has a non-empty name. -/
theorem claim_C4_witness :
    ("T", "") ∈ tags_v6 c4obj ∧ ("T", "").1 ≠ "" :=
  ⟨by decide, claim_C4_tag_resolver_empties.1 c4obj ("T", "") (by decide)⟩

/-- A `smarttag` element named `"Item Name"` with value `v`. -/
def tagItemName (v : String) : XML :=
  .mk "smarttag" [] none
    [.mk "name" [] (some "Item Name") [], .mk "value" [] (some v) []]

/-- Claim C5: tag resolution is last-write-wins — for every `ClashObject`
whose `smarttag` descendants, in document order, contain an `"Item Name"`
tag with value `"A"` and later one with value `"B"` (with no further
`"Item Name"` tag after the latter), the resolved mapping gives `Item Name`
the value `"B"`. -/
theorem claim_C5_last_write_wins :
    ∀ (co : XML) (pre mid post : List XML),
    findall_desc "smarttag" co
        = pre ++ tagItemName "A" :: (mid ++ tagItemName "B" :: post) →
    (∀ st ∈ post, pyStrip (findtext st "name" "") ≠ "Item Name") →
    dictGet? (tags_v6 co) "Item Name" = some "B" := by
  intro co pre mid post h hpost
  unfold tags_v6
  rw [h, List.foldl_append, List.foldl_cons, List.foldl_append, List.foldl_cons]
  rw [show ∀ acc : List (String × String),
      tagStep acc (tagItemName "B") = dictInsert acc "Item Name" "B" from fun acc => rfl]
  rw [tags_get_unaffected post _ "Item Name" hpost]
  exact dictGet?_dictInsert_self _ _ _

/-- A clash object with two `"Item Name"` smarttags, values `"A"` then
`"B"`, in document order. -/
def co5 : XML := .mk "clashobject" [] none [tagItemName "A", tagItemName "B"]

/-- Claim C5 witness: on the concrete object `co5` the resolved mapping
gives `Item Name` the value `"B"`. -/
theorem claim_C5_witness :
    dictGet? (tags_v6 co5) "Item Name" = some "B" :=
  claim_C5_last_write_wins co5 [] [] [] rfl
    (fun st hst => absurd hst (List.not_mem_nil st))

/-- Claim C6 counterexample: a missing source file does *not* propagate an
error — `export_to_excel` prints a message and returns normally (the
`returnedNoOutput` outcome), so the run ends without any exception even
though the parse would have succeeded, refuting "the error is propagated"
for the missing-file half of the claim. -/
theorem claim_C6_counterexample :
    propagatesError (export_to_excel_run (fun s => s) (fun _ => false) ""
      false (Except.ok (XML.mk "exchange" [] none []))) = false := by
  rfl

/-- Claim C6 (amended): a missing source file aborts the run by an early
normal return after printing a message — zero records reach any renderer but
no error propagates — while a document that fails to parse as well-formed
XML raises an error that propagates and aborts the run, again with zero
records and no partial output. -/
theorem claim_C6_fatal_conditions :
    (∀ (resolve : String → String) (fs : String → Bool) (xml_dir : String)
        (parseResult : Except Unit XML),
      export_to_excel_run resolve fs xml_dir false parseResult
        = ExportOutcome.returnedNoOutput)
    ∧ (∀ (resolve : String → String) (fs : String → Bool) (xml_dir : String) (e : Unit),
      export_to_excel_run resolve fs xml_dir true (Except.error e)
        = ExportOutcome.raisedParseError)
    ∧ (∀ (resolve : String → String) (fs : String → Bool) (xml_dir : String) (e : Unit),
      propagatesError (export_to_excel_run resolve fs xml_dir true (Except.error e)) = true) := by
  refine ⟨fun _ _ _ _ => rfl, fun _ _ _ _ => rfl, fun _ _ _ _ => rfl⟩

/-- The `pos3f` element of the C7 fixture: its `x` attribute is not a number. -/
def c7pos : XML := .mk "pos3f" [("x", "abc"), ("y", "1"), ("z", "2")] none []

/-- A clash whose position has an unparsable `x` attribute. -/
def c7clash : XML := .mk "clashresult" [] none [c7pos]

/-- Claim C7 counterexample: on a clash whose `pos3f` has `x="abc"`, the
Word v4 exporter's coordinate extraction raises (the `ValueError` from
`float` propagates — there is no `try/except` in `export_to_word`), refuting
"no error is raised" as stated over both cited exporters. -/
theorem claim_C7_counterexample :
    coords_text_word c7clash = Except.error ()
    ∧ getAttr c7pos "x" = some "abc" ∧ parseFloat? "abc" = none := by
  refine ⟨rfl, rfl, rfl⟩

/-- Claim C7 (amended): coordinate extraction is all-or-nothing in the Excel
v6 exporter — if parsing any one of the `x`, `y`, `z` attributes fails, the
whole coordinate field is the empty string rather than partially populated,
and no error escapes — whereas in the Word v4 exporter the same failure
raises an error that propagates. -/
theorem claim_C7_coordinate_failure :
    ∀ (clash pos : XML), find_desc "pos3f" clash = some pos →
    (axisVal (getAttr pos "x") = none ∨ axisVal (getAttr pos "y") = none
      ∨ axisVal (getAttr pos "z") = none) →
    coords_text_v6 clash = "" ∧ coords_text_word clash = Except.error () := by
  intro clash pos hp hfail
  unfold coords_text_v6 coords_text_word
  rw [hp]
  rcases hx : axisVal (getAttr pos "x") with _ | x
  · simp [hx]
  · rcases hy : axisVal (getAttr pos "y") with _ | y
    · simp [hx, hy]
    · rcases hz : axisVal (getAttr pos "z") with _ | z
      · simp [hx, hy, hz]
      · rcases hfail with h | h | h
        · rw [hx] at h; exact absurd h (by simp)
        · rw [hy] at h; exact absurd h (by simp)
        · rw [hz] at h; exact absurd h (by simp)

/-- Claim C7 witness: on the concrete clash `c7clash` (x unparsable) the v6
coordinate field is wholly empty and the Word v4 extraction errors out. -/
theorem claim_C7_witness :
    coords_text_v6 c7clash = "" ∧ coords_text_word c7clash = Except.error () :=
  claim_C7_coordinate_failure c7clash c7pos rfl (Or.inl (by decide))

/-- A clash whose position is `x="1"`, `y="2.5"`, `z="-3.25"`. -/
def c8clash : XML := .mk "clashresult" [] none
  [.mk "pos3f" [("x", "1"), ("y", "2.5"), ("z", "-3.25")] none []]

/-- Claim C8: for a position child with `x="1"`, `y="2.5"`, `z="-3.25"`, the
v6 exporter renders the coordinate text as exactly
`"1.000m,\n2.500m,\n-3.250m"` — three decimals, `m` suffix, axes separated
by comma-newline. -/
theorem claim_C8_coordinate_formatting :
    coords_text_v6 c8clash = "1.000m,\n2.500m,\n-3.250m" := by
  decide

/-- The `pos3f` element of the C10 witness for the `x` axis: no `x`
attribute at all. -/
def w10pos : XML := .mk "pos3f" [("y", "2.5"), ("z", "-3.25")] none []

/-- A clash whose position lacks the `x` attribute. -/
def w10clash : XML := .mk "clashresult" [] none [w10pos]

/-- The `pos3f` element of the C10 witness for the `y` axis: `y` carries an
empty-string attribute. -/
def w10ypos : XML := .mk "pos3f" [("x", "1"), ("y", ""), ("z", "-3.25")] none []

/-- A clash whose position has an empty-string `y` attribute. -/
def w10yclash : XML := .mk "clashresult" [] none [w10ypos]

/-- The `pos3f` element of the C10 witness for the `z` axis: no `z`
attribute at all. -/
def w10zpos : XML := .mk "pos3f" [("x", "1"), ("y", "2.5")] none []

/-- A clash whose position lacks the `z` attribute. -/
def w10zclash : XML := .mk "clashresult" [] none [w10zpos]

/-- Claim C10: when the position child is present but any one of the `x`,
`y`, `z` attributes is missing (or carries an empty-string attribute), the
builder silently substitutes `0.0` for that axis — `pos.get(axis) or 0.0` —
and renders it as `"0.000m"` (`format3 decZero = "0.000"`, followed in the
rendered text by the `m` suffix), instead of treating the coordinate field
as absent; the substituted axis renders exactly like a true zero coordinate,
so the two are indistinguishable in the output.  Stated for each of the
three axes, in both the Excel v6 and Word v4 renderings. -/
theorem claim_C10_missing_axis_zero :
    (∀ (clash pos : XML) (qy qz : Dec),
      find_desc "pos3f" clash = some pos →
      (getAttr pos "x" = none ∨ getAttr pos "x" = some "") →
      axisVal (getAttr pos "y") = some qy →
      axisVal (getAttr pos "z") = some qz →
      coords_text_v6 clash
          = format3 decZero ++ "m,\n" ++ format3 qy ++ "m,\n" ++ format3 qz ++ "m"
      ∧ coords_text_word clash
          = Except.ok (format3 decZero ++ "m, " ++ format3 qy ++ "m, " ++ format3 qz ++ "m"))
    ∧ (∀ (clash pos : XML) (qx qz : Dec),
      find_desc "pos3f" clash = some pos →
      (getAttr pos "y" = none ∨ getAttr pos "y" = some "") →
      axisVal (getAttr pos "x") = some qx →
      axisVal (getAttr pos "z") = some qz →
      coords_text_v6 clash
          = format3 qx ++ "m,\n" ++ format3 decZero ++ "m,\n" ++ format3 qz ++ "m"
      ∧ coords_text_word clash
          = Except.ok (format3 qx ++ "m, " ++ format3 decZero ++ "m, " ++ format3 qz ++ "m"))
    ∧ (∀ (clash pos : XML) (qx qy : Dec),
      find_desc "pos3f" clash = some pos →
      (getAttr pos "z" = none ∨ getAttr pos "z" = some "") →
      axisVal (getAttr pos "x") = some qx →
      axisVal (getAttr pos "y") = some qy →
      coords_text_v6 clash
          = format3 qx ++ "m,\n" ++ format3 qy ++ "m,\n" ++ format3 decZero ++ "m"
      ∧ coords_text_word clash
          = Except.ok (format3 qx ++ "m, " ++ format3 qy ++ "m, " ++ format3 decZero ++ "m"))
    ∧ format3 decZero = "0.000" := by
  refine ⟨?_, ?_, ?_, by decide⟩
  · intro clash pos qy qz hp hx hy hz
    have hx0 : axisVal (getAttr pos "x") = some decZero := by
      rcases hx with h | h <;> rw [h] <;> rfl
    unfold coords_text_v6 coords_text_word
    rw [hp]
    simp only [hx0, hy, hz]
    exact ⟨trivial, trivial⟩
  · intro clash pos qx qz hp hy hx hz
    have hy0 : axisVal (getAttr pos "y") = some decZero := by
      rcases hy with h | h <;> rw [h] <;> rfl
    unfold coords_text_v6 coords_text_word
    rw [hp]
    simp only [hy0, hx, hz]
    exact ⟨trivial, trivial⟩
  · intro clash pos qx qy hp hz hx hy
    have hz0 : axisVal (getAttr pos "z") = some decZero := by
      rcases hz with h | h <;> rw [h] <;> rfl
    unfold coords_text_v6 coords_text_word
    rw [hp]
    simp only [hz0, hx, hy]
    exact ⟨trivial, trivial⟩

/-- Claim C10 witness, one concrete document per axis: with `x` absent the
v6 text is `"0.000m,\n2.500m,\n-3.250m"`; with `y` the empty string it is
`"1.000m,\n0.000m,\n-3.250m"`; with `z` absent it is
`"1.000m,\n2.500m,\n0.000m"`. -/
theorem claim_C10_witness :
    coords_text_v6 w10clash = "0.000m,\n2.500m,\n-3.250m"
    ∧ coords_text_v6 w10yclash = "1.000m,\n0.000m,\n-3.250m"
    ∧ coords_text_v6 w10zclash = "1.000m,\n2.500m,\n0.000m" :=
  ⟨((claim_C10_missing_axis_zero.1 w10clash w10pos ⟨25, 1⟩ ⟨-325, 2⟩ rfl
      (Or.inl rfl) (by decide) (by decide)).1).trans (by decide),
   ((claim_C10_missing_axis_zero.2.1 w10yclash w10ypos ⟨1, 0⟩ ⟨-325, 2⟩ rfl
      (Or.inr rfl) (by decide) (by decide)).1).trans (by decide),
   ((claim_C10_missing_axis_zero.2.2.1 w10zclash w10zpos ⟨1, 0⟩ ⟨25, 1⟩ rfl
      (Or.inl rfl) (by decide) (by decide)).1).trans (by decide)⟩

/-- The document `<a><b x="1">text</b></a>`. -/
def c9doc : XML := .mk "a" [] none [.mk "b" [("x", "1")] (some "text") []]

/-- Claim C9: the field discovery scanner applied to `<a><b x="1">text</b></a>`
returns `elements = ["a", "a/b"]` (the root qualifies through its child, `b`
through its text) and `attributes = ["a/b/@x"]`, both sorted
lexicographically. -/
theorem claim_C9_field_discovery :
    discover_fields c9doc = (["a", "a/b"], ["a/b/@x"]) := by
  decide
